import Mathlib

/-!
# Verification of the confident-learning segmentation pipeline

Shallow embedding of the two source files of the repository
`Confident_Learning_for_Noisy-labeled_Medical_Image_Segmentation`:

* `utils/confident_map_generation_test.py` — dispatch over confident-learning
  (CL) pruning methods and assembly of per-image confidence maps;
* `train_pixel_level_classification.py` — the epoch orchestrator
  `iterate_for_an_epoch` and the checkpoint policy of the main loop.

External collaborators (the `cleanlab` library, the network, the loss, the
metrics collaborator, visdom, the logger) are parameters of the embedding:
the code under verification only sequences their calls.
-/

/-! ## Confident-map generation (`TestConfidentMapEachModelEachCLType`) -/

/-- The signature of `cleanlab.pruning.get_noise_indices`, the external
collaborator: observed labels, a probability matrix (one row per pixel) and a
`prune_method` string, returning one boolean noise decision per pixel.  The
embedding is parameterized over it. -/
def GetNoiseIndices : Type :=
  List Nat → List (List ℚ) → String → List Bool

/-- The CL-type dispatch of `TestConfidentMapEachModelEachCLType`
(`confident_map_generation_test.py`, lines 169–189): the if/elif chain over
`CL_type`.  `masks` is `masks_np_accumulated`, `predsSoftmax` is
`preds_softmax_np_accumulated`, `preds` is `preds_np_accumulated`.  A
`CL_type` matched by no branch leaves the Python variable `noise` unassigned,
so the subsequent use of `noise` fails; this is the `none` case. -/
def clNoise (gni : GetNoiseIndices) (masks : List Nat)
    (predsSoftmax preds : List (List ℚ)) (CL_type : String) :
    Option (List Bool) :=
  if CL_type = "both" ∨ CL_type = "Qij" then
    some (gni masks predsSoftmax "both")
  else if CL_type = "Cij" then
    some (gni masks preds "both")
  else if CL_type = "intersection" then
    some (List.zipWith and (gni masks predsSoftmax "both")
      (gni masks preds "both"))
  else if CL_type = "union" then
    some (List.zipWith or (gni masks predsSoftmax "both")
      (gni masks preds "both"))
  else if CL_type = "prune_by_class" ∨ CL_type = "prune_by_noise_rate" then
    some (gni masks predsSoftmax CL_type)
  else
    none

/-- The seven `CL_type` strings accepted by the dispatch. -/
def supportedCLTypes : List String :=
  ["prune_by_class", "prune_by_noise_rate", "both", "Cij", "Qij",
   "intersection", "union"]

/-- Mask `a` is a pixelwise subset of mask `b`: every pixel flagged noisy by
`a` is flagged noisy by `b`. -/
def maskSubset (a b : List Bool) : Prop :=
  ∀ i, a.get? i = some true → b.get? i = some true

/-- Splitting a flat list into consecutive chunks of `w` elements, the
list-level meaning of one numpy `reshape` axis (row-major). -/
def chunkList (w : Nat) (xs : List α) : List (List α) :=
  if h : w = 0 ∨ xs.length = 0 then []
  else xs.take w :: chunkList w (xs.drop w)
termination_by xs.length
decreasing_by
  push_neg at h
  obtain ⟨hw, hxs⟩ := h
  simp only [List.length_drop]
  omega

/-- The byte encoding of a noise decision, `noise.astype(np.uint8) * 255`
applied to one boolean. -/
def boolToByte (b : Bool) : Nat :=
  (if b then 1 else 0) * 255

/-- Reading one stored byte of a confidence map back as a boolean. -/
def byteToBool (x : Nat) : Bool :=
  x == 255

/-- The map assembly
`confident_maps_np = noise.reshape(-1, height, width).astype(np.uint8) * 255`
(`confident_map_generation_test.py`, line 191): the flat noise mask split into
per-image `height × width` byte matrices, in the accumulation order, row-major
within each image. -/
def assembleConfidentMaps (noise : List Bool) (height width : Nat) :
    List (List (List Nat)) :=
  (chunkList (height * width) noise).map
    (fun img => (chunkList width img).map (fun row => row.map boolToByte))

/-! ## Epoch orchestrator (`iterate_for_an_epoch`) -/

/-- What one batch contributes through the external collaborators: `loss` is
`loss.item()` produced by the pluggable loss, `dice` is `dice_batch_level`
produced by `metrics.metric_batch_level`.  The network forward, the loss and
the metrics collaborator are out of scope (interfaces only), so a batch is
characterized by these two values. -/
structure Batch where
  loss : ℚ
  dice : List ℚ

/-- The mutable validation-tracking fields of the external
`MetricsPixelLevelClassification` object that `iterate_for_an_epoch` touches:
`determine_saving_metric_on_validation_list` and `max_metric_on_validation`. -/
structure MetricsState where
  history : List ℚ
  maxMetric : ℚ
deriving DecidableEq

/-- Modelled from the spec: the initial state of the Validation History
(`MetricsPixelLevelClassification.__init__` is not under `src/`).  The history
starts empty; the running maximum starts at `0`, consistent with the invariant
that it equals the `max` of all entries ever appended (overlap scores are
non-negative). -/
def MetricsState.init : MetricsState :=
  { history := [], maxMetric := 0 }

/-- The external visdom sink: `images` is one `visdom_obj.images` call keyed
by its window name, `line` is one `visdom_obj.line` call keyed by window name,
`X` value, `Y` value and trace name.  Each call either succeeds or raises. -/
structure Visdom where
  images : String → Except String Unit
  line : String → Nat → ℚ → String → Except String Unit

/-- The external logger: one `logger.write` call, which either succeeds or
raises.  `iterate_for_an_epoch` receives `logger=None` or a logger object,
hence the `Option` at use sites. -/
def LoggerSink : Type :=
  String → Except String Unit

/-- Accumulator of the batch loop of `iterate_for_an_epoch`:
`loss_for_each_batch_list`, `dice_epoch_level`, and the counts of
`loss.backward()` and `optimizer.step()` calls, plus the messages printed by
the `except` handler of the visdom-images block. -/
structure LoopAcc where
  lossList : List ℚ
  diceList : List (List ℚ)
  backwardCalls : Nat
  optSteps : Nat
  reports : List String
deriving DecidableEq

/-- The initial batch-loop accumulator. -/
def LoopAcc.init : LoopAcc :=
  { lossList := [], diceList := [], backwardCalls := 0, optSteps := 0,
    reports := [] }

/-- The tag appended to visdom window names: `'T' if training else 'V'`. -/
def modeTag (training : Bool) : String :=
  if training then "T" else "V"

/-- The trace name used in the epoch-end visdom line updates:
`'training' if training else 'validation'`. -/
def lineName (training : Bool) : String :=
  if training then "training" else "validation"

/-- The three `visdom_obj.images` calls of the batch loop
(`train_pixel_level_classification.py`, lines 99–116), sequenced so that a
failing call skips the remaining ones, as in the Python `try` block. -/
def imagesBlock (vis : Visdom) (training : Bool) : Except String Unit :=
  match vis.images ("I" ++ modeTag training) with
  | Except.error e => Except.error e
  | Except.ok _ =>
    match vis.images ("O" ++ modeTag training) with
    | Except.error e => Except.error e
    | Except.ok _ => vis.images ("L" ++ modeTag training)

/-- The per-batch log line (`train_pixel_level_classification.py`,
lines 92–94), written only when a logger was passed; not wrapped in any
exception handler. -/
def batchLogWrite (epochIdx batchIdx : Nat) (logger : Option LoggerSink) :
    Except String Unit :=
  match logger with
  | some lw => lw ("epoch: " ++ toString epochIdx ++ ", batch: " ++
      toString batchIdx ++ ", loss, consuming time")
  | none => Except.ok ()

/-- The pure accumulator update of one batch-loop iteration: the two appends
and, when `training`, the one `loss.backward()` and one `optimizer.step()`
call. -/
def stepAcc (training : Bool) (b : Batch) (acc : LoopAcc) : LoopAcc :=
  { lossList := acc.lossList ++ [b.loss]
    diceList := acc.diceList ++ [b.dice]
    backwardCalls := acc.backwardCalls + (if training then 1 else 0)
    optSteps := acc.optSteps + (if training then 1 else 0)
    reports := acc.reports }

/-- The body of the batch loop of `iterate_for_an_epoch`
(`train_pixel_level_classification.py`, lines 56–118), in source order: append
`loss.item()`; when `training`, call `loss.backward()` and `optimizer.step()`;
append `dice_batch_level`; write the batch log line (uncaught, so a raising
logger aborts the epoch); every `cfg.visdom.update_batches` batches run the
three `visdom_obj.images` calls inside `try/except BaseException`, printing
the error message on failure instead of propagating it. -/
def processBatch (training : Bool) (epochIdx batchIdx updateBatches : Nat)
    (vis : Visdom) (logger : Option LoggerSink) (b : Batch) (acc : LoopAcc) :
    Except String LoopAcc :=
  let acc1 : LoopAcc := stepAcc training b acc
  match batchLogWrite epochIdx batchIdx logger with
  | Except.error e => Except.error e
  | Except.ok _ =>
    if batchIdx % updateBatches == 0 then
      match imagesBlock vis training with
      | Except.error err =>
          Except.ok
            { acc1 with reports := acc1.reports ++ ["Error message: " ++ err] }
      | Except.ok _ => Except.ok acc1
    else
      Except.ok acc1

/-- The batch loop itself: `for batch_idx, ... in enumerate(data_loader)`. -/
def batchLoop (training : Bool) (epochIdx updateBatches : Nat) (vis : Visdom)
    (logger : Option LoggerSink) :
    Nat → List Batch → LoopAcc → Except String LoopAcc
  | _, [], acc => Except.ok acc
  | batchIdx, b :: rest, acc =>
    match processBatch training epochIdx batchIdx updateBatches vis logger b
        acc with
    | Except.error e => Except.error e
    | Except.ok acc2 =>
        batchLoop training epochIdx updateBatches vis logger (batchIdx + 1)
          rest acc2

/-- The arithmetic mean of a list of rationals, the meaning of `np.mean` on a
non-empty one-dimensional array. -/
def meanQ (xs : List ℚ) : ℚ :=
  xs.sum / xs.length

/-- The columnwise mean `np.array(rows).mean(axis=0)` of a rectangular list of
rows (the per-batch dice vectors): one mean per column of the first row's
width. -/
def meanAxis0 (rows : List (List ℚ)) : List ℚ :=
  match rows with
  | [] => []
  | r :: _ =>
      (List.range r.length).map
        (fun j => meanQ (rows.map (fun row => row.getD j 0)))

/-- The epoch-level quantities computed and reported by
`iterate_for_an_epoch`: the mean loss, the per-class and total dice, the
gradient/optimizer call counts of the epoch, and the error messages printed
for caught visdom-images failures. -/
structure EpochStats where
  avgLoss : ℚ
  diceClass : List ℚ
  diceTotal : ℚ
  backwardCalls : Nat
  optSteps : Nat
  reports : List String
deriving DecidableEq

/-- The epoch-end per-class visdom line updates
(`train_pixel_level_classification.py`, lines 155–162), not wrapped in any
exception handler. -/
def classLines (vis : Visdom) (training : Bool) (epochIdx : Nat) :
    List ℚ → Nat → Except String Unit
  | [], _ => Except.ok ()
  | v :: rest, classIdx =>
    match vis.line ("metrics_dice_class_" ++ toString classIdx) epochIdx v
        (lineName training) with
    | Except.error e => Except.error e
    | Except.ok _ => classLines vis training epochIdx rest (classIdx + 1)

/-- The entry log lines of `iterate_for_an_epoch` (lines 36–44). -/
def entryLogging (training : Bool) (epochIdx : Nat)
    (logger : Option LoggerSink) : Except String Unit :=
  match logger with
  | some lw =>
    match lw "--------------------------------------------" with
    | Except.error e => Except.error e
    | Except.ok _ =>
        lw ((if training then "start training epoch: "
             else "start evaluating epoch: ") ++ toString epochIdx)
  | none => Except.ok ()

/-- The epoch-end log lines (lines 132–137), written only when a logger was
passed; not wrapped in any exception handler. -/
def epochEndLogWrites (training : Bool) (epochIdx : Nat)
    (logger : Option LoggerSink) : Except String Unit :=
  match logger with
  | some lw =>
    match lw ((if training then "training" else "evaluating") ++
        " of epoch " ++ toString epochIdx ++ " finished") with
    | Except.error e => Except.error e
    | Except.ok _ =>
      match lw ("epoch: " ++ toString epochIdx ++ ", loss, consuming time")
          with
      | Except.error e => Except.error e
      | Except.ok _ => lw "--------------------------------------------"
  | none => Except.ok ()

/-- The epoch-end logging and visdom line updates (lines 132–162), run after
the Validation History update; none of them is wrapped in an exception
handler, so a raising sink propagates out of `iterate_for_an_epoch`. -/
def epochEndSinks (training : Bool) (epochIdx : Nat) (vis : Visdom)
    (logger : Option LoggerSink) (avgLoss : ℚ) (diceClass : List ℚ)
    (diceTotal : ℚ) : Except String Unit :=
  match epochEndLogWrites training epochIdx logger with
  | Except.error e => Except.error e
  | Except.ok _ =>
    match vis.line "loss" epochIdx avgLoss (lineName training ++ "_loss") with
    | Except.error e => Except.error e
    | Except.ok _ =>
      match vis.line "metrics_total_dice" epochIdx diceTotal
          (lineName training) with
      | Except.error e => Except.error e
      | Except.ok _ => classLines vis training epochIdx diceClass 0

/-- The epoch orchestrator `iterate_for_an_epoch`
(`train_pixel_level_classification.py`, lines 27–164).  Returns the state of
the validation-tracking metrics fields after the call (the Python object is
mutated in place, so the caller observes the mutation even when an exception
propagates) together with either the epoch statistics or the propagated
exception.  The Validation History is appended to, and the running maximum
updated, exactly when `training` is false (lines 128–130), before the
epoch-end sink calls. -/
def iterate_for_an_epoch (training : Bool) (epochIdx : Nat)
    (batches : List Batch) (vis : Visdom) (logger : Option LoggerSink)
    (updateBatches : Nat) (ms : MetricsState) :
    MetricsState × Except String EpochStats :=
  match entryLogging training epochIdx logger with
  | Except.error e => (ms, Except.error e)
  | Except.ok _ =>
    match batchLoop training epochIdx updateBatches vis logger 0 batches
        LoopAcc.init with
    | Except.error e => (ms, Except.error e)
    | Except.ok acc =>
      let diceClass := meanAxis0 acc.diceList
      let diceTotal := meanQ diceClass
      let avgLoss := meanQ acc.lossList
      let ms2 : MetricsState :=
        if training then ms
        else { history := ms.history ++ [diceTotal]
               maxMetric := max ms.maxMetric diceTotal }
      match epochEndSinks training epochIdx vis logger avgLoss diceClass
          diceTotal with
      | Except.error e => (ms2, Except.error e)
      | Except.ok _ =>
          (ms2, Except.ok
            { avgLoss := avgLoss
              diceClass := diceClass
              diceTotal := diceTotal
              backwardCalls := acc.backwardCalls
              optSteps := acc.optSteps
              reports := acc.reports })

/-! ## Checkpoint policy (main loop of `train_pixel_level_classification.py`) -/

/-- Modelled from the spec: `save_best_ckpt` (`common/utils.py`, which is not
under `src/`; only its call site at line 292 is).  Per the spec, the
best-on-validation snapshot fires if and only if the epoch's total validation
overlap — the entry just appended to the Validation History — equals or
exceeds the running maximum recorded there. -/
def save_best_ckpt (ms : MetricsState) : Bool :=
  match ms.history.getLast? with
  | some v => decide (ms.maxMetric ≤ v)
  | none => false

/-- A checkpoint persistence event of the main loop. -/
inductive CkptEvent where
  | periodic (epochIdx : Nat)
  | best (epochIdx : Nat)
deriving DecidableEq

/-- The checkpoint decisions at the end of one main-loop epoch
(`train_pixel_level_classification.py`, lines 287–292): the periodic snapshot
`if epoch_idx % cfg.train.save_epochs is 0`, then the best-on-validation
snapshot `save_best_ckpt(metrics, ...)` on the already-updated metrics
state. -/
def checkpointEvents (saveEpochs epochIdx : Nat) (ms : MetricsState) :
    List CkptEvent :=
  (if epochIdx % saveEpochs == 0 then [CkptEvent.periodic epochIdx] else [])
    ++ (if save_best_ckpt ms then [CkptEvent.best epochIdx] else [])

/-- The main epoch loop (`train_pixel_level_classification.py`,
lines 264–292) from a given epoch index for a given number of remaining
epochs: one training pass, one validation pass, then the checkpoint
decisions; an exception propagating out of an epoch aborts the run. -/
def runEpochsFrom (saveEpochs updateBatches : Nat)
    (trainBatches evalBatches : Nat → List Batch) (vis : Visdom)
    (logger : Option LoggerSink) (ms : MetricsState)
    (events : List CkptEvent) :
    Nat → Nat → Except String (MetricsState × List CkptEvent)
  | _, 0 => Except.ok (ms, events)
  | epochIdx, n + 1 =>
    match iterate_for_an_epoch true epochIdx (trainBatches epochIdx) vis
        logger updateBatches ms with
    | (_, Except.error e) => Except.error e
    | (ms1, Except.ok _) =>
      match iterate_for_an_epoch false epochIdx (evalBatches epochIdx) vis
          logger updateBatches ms1 with
      | (_, Except.error e) => Except.error e
      | (ms2, Except.ok _) =>
          runEpochsFrom saveEpochs updateBatches trainBatches evalBatches vis
            logger ms2
            (events ++ checkpointEvents saveEpochs epochIdx ms2)
            (epochIdx + 1) n

/-- A whole training run: `num_epochs` (train, eval, checkpoint) rounds from
the initial metrics state, collecting the checkpoint events. -/
def runTrainingLoop (numEpochs saveEpochs updateBatches : Nat)
    (trainBatches evalBatches : Nat → List Batch) (vis : Visdom)
    (logger : Option LoggerSink) :
    Except String (MetricsState × List CkptEvent) :=
  runEpochsFrom saveEpochs updateBatches trainBatches evalBatches vis logger
    MetricsState.init [] 0 numEpochs

/-- A visdom sink whose calls all succeed. -/
def trivVis : Visdom :=
  { images := fun _ => Except.ok ()
    line := fun _ _ _ _ => Except.ok () }

/-- A visdom sink whose image-display calls succeed but whose line-plot calls
raise. -/
def failLineVis : Visdom :=
  { images := fun _ => Except.ok ()
    line := fun _ _ _ _ => Except.error "visdom connection refused" }

/-- A visdom sink whose image-display calls raise but whose line-plot calls
succeed. -/
def failImagesVis : Visdom :=
  { images := fun _ => Except.error "visdom connection refused"
    line := fun _ _ _ _ => Except.ok () }

/-- The running maximum determined by a Validation History alone: the `max`
of all entries ever appended (and `0` for the empty history, the modelled
initial value). -/
def historyMax (l : List ℚ) : ℚ :=
  l.foldl max 0

/-- A concrete `get_noise_indices` collaborator used by witnesses: flags
pixel `i` iff its first class probability is at least `1/2`.  Its output
length always equals the input pixel count, as the real collaborator
guarantees. -/
def exampleGni : GetNoiseIndices :=
  fun masks probs _ =>
    (List.range masks.length).map
      (fun i => decide ((1 : ℚ)/2 ≤ (probs.getD i []).getD 0 0))

/-- The three batches of the spec's Epoch Orchestrator example: losses
`[1.0, 2.0, 3.0]` and per-class overlap vectors
`[[0.9, 0.1], [0.8, 0.2], [0.7, 0.3]]`. -/
def exampleBatches : List Batch :=
  [{ loss := 1, dice := [9/10, 1/10] },
   { loss := 2, dice := [4/5, 1/5] },
   { loss := 3, dice := [7/10, 3/10] }]

/-- Validation batches realizing the spec's Checkpoint Policy example: epoch
`e` scores a total validation overlap of `[0.10, 0.15, 0.12, 0.20][e]`. -/
def exampleEvalBatches : Nat → List Batch :=
  fun e => [{ loss := 0, dice := [[1/10, 3/20, 3/25, 1/5].getD e 0] }]

/-- Training batches accompanying `exampleEvalBatches` (their dice values
never reach the Validation History). -/
def exampleTrainBatches : Nat → List Batch :=
  fun _ => [{ loss := 0, dice := [0] }]

/-! ## Helper lemmas -/

lemma maskSubset_or_left (q c : List Bool) (h : q.length = c.length) :
    maskSubset q (List.zipWith or q c) := by
  induction q generalizing c with
  | nil => intro i hi; simp [List.get?] at hi
  | cons a as ih =>
      cases c with
      | nil => simp at h
      | cons b bs =>
          intro i hi
          cases i with
          | zero =>
              simp only [List.zipWith, List.get?] at hi ⊢
              obtain rfl : a = true := by simpa using hi
              simp
          | succ i =>
              simp only [List.zipWith, List.get?] at hi ⊢
              exact ih bs (by simpa using h) i hi

lemma maskSubset_or_right (q c : List Bool) (h : q.length = c.length) :
    maskSubset c (List.zipWith or q c) := by
  induction q generalizing c with
  | nil =>
      cases c with
      | nil => intro i hi; simp [List.get?] at hi
      | cons b bs => simp at h
  | cons a as ih =>
      cases c with
      | nil => simp at h
      | cons b bs =>
          intro i hi
          cases i with
          | zero =>
              simp only [List.zipWith, List.get?] at hi ⊢
              obtain rfl : b = true := by simpa using hi
              simp
          | succ i =>
              simp only [List.zipWith, List.get?] at hi ⊢
              exact ih bs (by simpa using h) i hi

lemma maskSubset_and_left (q c : List Bool) :
    maskSubset (List.zipWith and q c) q := by
  induction q generalizing c with
  | nil => intro i hi; simp [List.get?] at hi
  | cons a as ih =>
      cases c with
      | nil => intro i hi; simp [List.get?] at hi
      | cons b bs =>
          intro i hi
          cases i with
          | zero =>
              simp only [List.zipWith, List.get?] at hi ⊢
              obtain ⟨rfl, -⟩ : a = true ∧ b = true := by
                simpa [Bool.and_eq_true] using hi
              simp
          | succ i =>
              simp only [List.zipWith, List.get?] at hi ⊢
              exact ih bs i hi

lemma maskSubset_and_right (q c : List Bool) :
    maskSubset (List.zipWith and q c) c := by
  induction q generalizing c with
  | nil => intro i hi; simp [List.get?] at hi
  | cons a as ih =>
      cases c with
      | nil => intro i hi; simp [List.get?] at hi
      | cons b bs =>
          intro i hi
          cases i with
          | zero =>
              simp only [List.zipWith, List.get?] at hi ⊢
              obtain ⟨-, rfl⟩ : a = true ∧ b = true := by
                simpa [Bool.and_eq_true] using hi
              simp
          | succ i =>
              simp only [List.zipWith, List.get?] at hi ⊢
              exact ih bs i hi

lemma chunkList_nil (w : Nat) : chunkList w ([] : List α) = [] := by
  rw [chunkList]; simp

lemma chunkList_cons_unfold (w : Nat) (xs : List α) (hw : 0 < w)
    (hxs : xs ≠ []) :
    chunkList w xs = xs.take w :: chunkList w (xs.drop w) := by
  rw [chunkList, dif_neg]
  push_neg
  exact ⟨by omega, by simpa [List.length_eq_zero] using hxs⟩

lemma chunkList_flatten (w : Nat) (hw : 0 < w) (xs : List α) :
    (chunkList w xs).flatten = xs := by
  have H : ∀ n (ys : List α), ys.length ≤ n → (chunkList w ys).flatten = ys := by
    intro n
    induction n with
    | zero =>
        intro ys hy
        obtain rfl : ys = [] := by
          cases ys with
          | nil => rfl
          | cons a l => simp at hy
        simp [chunkList_nil]
    | succ n ih =>
        intro ys hy
        by_cases hys : ys = []
        · subst hys; simp [chunkList_nil]
        · rw [chunkList_cons_unfold w ys hw hys, List.flatten_cons,
            ih (ys.drop w) (by simp [List.length_drop]; omega)]
          exact List.take_append_drop w ys
  exact H xs.length xs le_rfl

lemma chunkList_get? (w : Nat) (hw : 0 < w) :
    ∀ (i : Nat) (xs : List α), (i + 1) * w ≤ xs.length →
      (chunkList w xs).get? i = some ((xs.drop (i * w)).take w) := by
  intro i
  induction i with
  | zero =>
      intro xs h
      have h1 : w ≤ xs.length := by
        calc w = (0 + 1) * w := by ring
        _ ≤ xs.length := h
      have hxs : xs ≠ [] := by
        intro hh
        rw [hh] at h1
        simp at h1
        omega
      rw [chunkList_cons_unfold w xs hw hxs]
      simp
  | succ i ih =>
      intro xs h
      rw [show (i + 1 + 1) * w = (i + 1) * w + w from by ring] at h
      have hxs : xs ≠ [] := by
        intro hh
        rw [hh] at h
        simp at h
        omega
      rw [chunkList_cons_unfold w xs hw hxs]
      have hrec := ih (xs.drop w) (by rw [List.length_drop]; omega)
      simp only [List.get?_cons_succ]
      rw [hrec, List.drop_drop]
      rw [show w + i * w = (i + 1) * w from by ring]

lemma processBatch_ok (training : Bool) (epochIdx batchIdx updateBatches : Nat)
    (vis : Visdom) (logger : Option LoggerSink) (b : Batch) (acc acc2 : LoopAcc)
    (h : processBatch training epochIdx batchIdx updateBatches vis logger b acc
      = Except.ok acc2) :
    acc2.lossList = acc.lossList ++ [b.loss] ∧
    acc2.diceList = acc.diceList ++ [b.dice] ∧
    acc2.backwardCalls = acc.backwardCalls + (if training then 1 else 0) ∧
    acc2.optSteps = acc.optSteps + (if training then 1 else 0) ∧
    ∃ extra, acc2.reports = acc.reports ++ extra := by
  unfold processBatch at h
  simp only at h
  split at h
  · exact absurd h (by simp)
  · split at h
    · split at h
      · injection h with h2
        subst h2
        refine ⟨by simp [stepAcc], by simp [stepAcc], by simp [stepAcc],
          by simp [stepAcc], ⟨_, rfl⟩⟩
      · injection h with h2
        subst h2
        refine ⟨by simp [stepAcc], by simp [stepAcc], by simp [stepAcc],
          by simp [stepAcc], ⟨[], by simp [stepAcc]⟩⟩
    · injection h with h2
      subst h2
      refine ⟨by simp [stepAcc], by simp [stepAcc], by simp [stepAcc],
        by simp [stepAcc], ⟨[], by simp [stepAcc]⟩⟩

lemma batchLoop_ok (training : Bool) (epochIdx updateBatches : Nat)
    (vis : Visdom) (logger : Option LoggerSink) :
    ∀ (batches : List Batch) (batchIdx : Nat) (acc acc2 : LoopAcc),
      batchLoop training epochIdx updateBatches vis logger batchIdx batches acc
        = Except.ok acc2 →
      acc2.lossList = acc.lossList ++ batches.map Batch.loss ∧
      acc2.diceList = acc.diceList ++ batches.map Batch.dice ∧
      acc2.backwardCalls
        = acc.backwardCalls + (if training then batches.length else 0) ∧
      acc2.optSteps = acc.optSteps + (if training then batches.length else 0) ∧
      ∃ extra, acc2.reports = acc.reports ++ extra := by
  intro batches
  induction batches with
  | nil =>
      intro batchIdx acc acc2 h
      simp only [batchLoop] at h
      injection h with h2
      subst h2
      simp
  | cons b rest ih =>
      intro batchIdx acc acc2 h
      simp only [batchLoop] at h
      cases hp : processBatch training epochIdx batchIdx updateBatches vis
          logger b acc with
      | error e =>
          rw [hp] at h
          exact absurd h (by simp)
      | ok acc1 =>
          rw [hp] at h
          simp only at h
          obtain ⟨hl, hd, hb, ho, ⟨ex1, hr⟩⟩ :=
            processBatch_ok training epochIdx batchIdx updateBatches vis
              logger b acc acc1 hp
          obtain ⟨hl2, hd2, hb2, ho2, ⟨ex2, hr2⟩⟩ := ih _ _ _ h
          refine ⟨?_, ?_, ?_, ?_, ⟨ex1 ++ ex2, ?_⟩⟩
          · rw [hl2, hl]; simp
          · rw [hd2, hd]; simp
          · rw [hb2, hb]; cases training <;> simp <;> omega
          · rw [ho2, ho]; cases training <;> simp <;> omega
          · rw [hr2, hr]; simp

lemma iterate_ok_inv (training : Bool) (epochIdx : Nat) (batches : List Batch)
    (vis : Visdom) (logger : Option LoggerSink) (updateBatches : Nat)
    (ms ms2 : MetricsState) (stats : EpochStats)
    (h : iterate_for_an_epoch training epochIdx batches vis logger
      updateBatches ms = (ms2, Except.ok stats)) :
    ∃ acc,
      batchLoop training epochIdx updateBatches vis logger 0 batches
        LoopAcc.init = Except.ok acc ∧
      stats.avgLoss = meanQ acc.lossList ∧
      stats.diceClass = meanAxis0 acc.diceList ∧
      stats.diceTotal = meanQ (meanAxis0 acc.diceList) ∧
      stats.backwardCalls = acc.backwardCalls ∧
      stats.optSteps = acc.optSteps ∧
      stats.reports = acc.reports ∧
      ms2 = (if training then ms
        else { history := ms.history ++ [stats.diceTotal]
               maxMetric := max ms.maxMetric stats.diceTotal }) := by
  unfold iterate_for_an_epoch at h
  cases hE : entryLogging training epochIdx logger with
  | error e =>
      rw [hE] at h
      simp at h
  | ok u =>
      rw [hE] at h
      cases hL : batchLoop training epochIdx updateBatches vis logger 0
          batches LoopAcc.init with
      | error e =>
          rw [hL] at h
          simp at h
      | ok acc =>
          rw [hL] at h
          simp only at h
          cases hS : epochEndSinks training epochIdx vis logger
              (meanQ acc.lossList) (meanAxis0 acc.diceList)
              (meanQ (meanAxis0 acc.diceList)) with
          | error e =>
              rw [hS] at h
              simp at h
          | ok v =>
              rw [hS] at h
              simp only [Prod.mk.injEq] at h
              obtain ⟨h1, h2⟩ := h
              injection h2 with h3
              subst h3
              exact ⟨acc, rfl, rfl, rfl, rfl, rfl, rfl, rfl, h1.symm⟩

lemma batchLogWrite_ok (epochIdx batchIdx : Nat) (logger : Option LoggerSink)
    (hlog : ∀ lw, logger = some lw → ∀ s, lw s = Except.ok ()) :
    batchLogWrite epochIdx batchIdx logger = Except.ok () := by
  cases logger with
  | none => rfl
  | some lw => exact hlog lw rfl _

lemma processBatch_never_fails (training : Bool)
    (epochIdx batchIdx updateBatches : Nat) (vis : Visdom)
    (logger : Option LoggerSink) (b : Batch) (acc : LoopAcc)
    (hlog : ∀ lw, logger = some lw → ∀ s, lw s = Except.ok ()) :
    ∃ acc2, processBatch training epochIdx batchIdx updateBatches vis logger b
      acc = Except.ok acc2 := by
  unfold processBatch
  rw [batchLogWrite_ok epochIdx batchIdx logger hlog]
  simp only
  split
  · split
    · exact ⟨_, rfl⟩
    · exact ⟨_, rfl⟩
  · exact ⟨_, rfl⟩

lemma batchLoop_never_fails (training : Bool) (epochIdx updateBatches : Nat)
    (vis : Visdom) (logger : Option LoggerSink)
    (hlog : ∀ lw, logger = some lw → ∀ s, lw s = Except.ok ()) :
    ∀ (batches : List Batch) (batchIdx : Nat) (acc : LoopAcc),
      ∃ acc2, batchLoop training epochIdx updateBatches vis logger batchIdx
        batches acc = Except.ok acc2 := by
  intro batches
  induction batches with
  | nil => intro bi acc; exact ⟨acc, rfl⟩
  | cons b rest ih =>
      intro bi acc
      obtain ⟨acc1, hp⟩ := processBatch_never_fails training epochIdx bi
        updateBatches vis logger b acc hlog
      obtain ⟨acc2, hl⟩ := ih (bi + 1) acc1
      refine ⟨acc2, ?_⟩
      simp only [batchLoop]
      rw [hp]
      exact hl

lemma entryLogging_ok (training : Bool) (epochIdx : Nat)
    (logger : Option LoggerSink)
    (hlog : ∀ lw, logger = some lw → ∀ s, lw s = Except.ok ()) :
    entryLogging training epochIdx logger = Except.ok () := by
  cases logger with
  | none => rfl
  | some lw =>
      simp only [entryLogging]
      rw [hlog lw rfl]
      exact hlog lw rfl _

lemma classLines_ok (vis : Visdom) (training : Bool) (epochIdx : Nat)
    (hline : ∀ w x y n, vis.line w x y n = Except.ok ()) :
    ∀ (l : List ℚ) (classIdx : Nat),
      classLines vis training epochIdx l classIdx = Except.ok () := by
  intro l
  induction l with
  | nil => intro ci; rfl
  | cons v rest ih =>
      intro ci
      simp only [classLines]
      rw [hline]
      exact ih (ci + 1)

lemma epochEndSinks_ok (training : Bool) (epochIdx : Nat) (vis : Visdom)
    (logger : Option LoggerSink) (avgLoss : ℚ) (diceClass : List ℚ)
    (diceTotal : ℚ)
    (hline : ∀ w x y n, vis.line w x y n = Except.ok ())
    (hlog : ∀ lw, logger = some lw → ∀ s, lw s = Except.ok ()) :
    epochEndSinks training epochIdx vis logger avgLoss diceClass diceTotal
      = Except.ok () := by
  have hlw : epochEndLogWrites training epochIdx logger = Except.ok () := by
    cases logger with
    | none => rfl
    | some lw =>
        simp only [epochEndLogWrites]
        rw [hlog lw rfl, hlog lw rfl]
        exact hlog lw rfl _
  unfold epochEndSinks
  rw [hlw, hline, hline]
  exact classLines_ok vis training epochIdx hline diceClass 0

lemma foldl_max_le_self (l : List ℚ) : ∀ a : ℚ, a ≤ l.foldl max a := by
  induction l with
  | nil => intro a; exact le_refl a
  | cons b t ih =>
      intro a
      exact le_trans (le_max_left a b) (ih (max a b))

lemma mem_le_foldl_max (l : List ℚ) :
    ∀ (a x : ℚ), x ∈ l → x ≤ l.foldl max a := by
  induction l with
  | nil => intro a x hx; simp at hx
  | cons b t ih =>
      intro a x hx
      rcases List.mem_cons.mp hx with rfl | hx2
      · exact le_trans (le_max_right a x) (foldl_max_le_self t (max a x))
      · exact ih (max a b) x hx2

lemma foldl_max_mem_or_init (l : List ℚ) :
    ∀ a : ℚ, l.foldl max a ∈ l ∨ l.foldl max a = a := by
  induction l with
  | nil => intro a; exact Or.inr rfl
  | cons b t ih =>
      intro a
      rcases ih (max a b) with hm | he
      · exact Or.inl (List.mem_cons_of_mem b hm)
      · rcases max_choice a b with hab | hab
        · exact Or.inr (by rw [List.foldl_cons, he, hab])
        · refine Or.inl ?_
          rw [List.foldl_cons, he, hab]
          exact List.mem_cons_self b t

lemma best_mem_checkpointEvents (saveEpochs epochIdx : Nat)
    (ms : MetricsState) :
    CkptEvent.best epochIdx ∈ checkpointEvents saveEpochs epochIdx ms ↔
      save_best_ckpt ms = true := by
  unfold checkpointEvents
  cases hsb : save_best_ckpt ms <;>
    by_cases hpm : (epochIdx % saveEpochs == 0) = true <;>
      simp [hpm, hsb]

lemma periodic_mem_checkpointEvents (saveEpochs epochIdx : Nat)
    (ms : MetricsState) :
    CkptEvent.periodic epochIdx ∈ checkpointEvents saveEpochs epochIdx ms ↔
      (epochIdx % saveEpochs == 0) = true := by
  unfold checkpointEvents
  cases hsb : save_best_ckpt ms <;>
    by_cases hpm : (epochIdx % saveEpochs == 0) = true <;>
      simp [hpm, hsb]

/-! ## Claim theorems -/

/-- **C1.** For every input satisfying the shape preconditions (the external
collaborator returns one decision per pixel on both probability arrays), the
noise mask of `prune(method='union')` is the pixelwise OR of the `Qij` and
`Cij` masks — hence a superset of each — and the mask of
`prune(method='intersection')` is their pixelwise AND — hence a subset of
each. -/
theorem prune_union_or_intersection_and (gni : GetNoiseIndices)
    (masks : List Nat) (predsSoftmax preds : List (List ℚ))
    (hq : (gni masks predsSoftmax "both").length = masks.length)
    (hc : (gni masks preds "both").length = masks.length) :
    ∃ q c,
      clNoise gni masks predsSoftmax preds "Qij" = some q ∧
      clNoise gni masks predsSoftmax preds "Cij" = some c ∧
      clNoise gni masks predsSoftmax preds "union"
        = some (List.zipWith or q c) ∧
      clNoise gni masks predsSoftmax preds "intersection"
        = some (List.zipWith and q c) ∧
      maskSubset q (List.zipWith or q c) ∧
      maskSubset c (List.zipWith or q c) ∧
      maskSubset (List.zipWith and q c) q ∧
      maskSubset (List.zipWith and q c) c := by
  refine ⟨gni masks predsSoftmax "both", gni masks preds "both",
    rfl, rfl, rfl, rfl,
    maskSubset_or_left _ _ (by rw [hq, hc]),
    maskSubset_or_right _ _ (by rw [hq, hc]),
    maskSubset_and_left _ _, maskSubset_and_right _ _⟩

/-- Witness for C1: the theorem applied at a concrete collaborator, labels
and probability arrays. -/
theorem prune_union_or_intersection_and_witness :
    ∃ q c,
      clNoise exampleGni [0, 1] [[1, 0], [0, 1]] [[0, 5], [3, 1]] "Qij"
        = some q ∧
      clNoise exampleGni [0, 1] [[1, 0], [0, 1]] [[0, 5], [3, 1]] "Cij"
        = some c ∧
      clNoise exampleGni [0, 1] [[1, 0], [0, 1]] [[0, 5], [3, 1]] "union"
        = some (List.zipWith or q c) ∧
      clNoise exampleGni [0, 1] [[1, 0], [0, 1]] [[0, 5], [3, 1]]
        "intersection" = some (List.zipWith and q c) ∧
      maskSubset q (List.zipWith or q c) ∧
      maskSubset c (List.zipWith or q c) ∧
      maskSubset (List.zipWith and q c) q ∧
      maskSubset (List.zipWith and q c) c :=
  prune_union_or_intersection_and exampleGni [0, 1] [[1, 0], [0, 1]]
    [[0, 5], [3, 1]] (by decide) (by decide)

/-- **C10.** `prune` with method `both` and with method `Qij` take the same
branch of the dispatch: both return exactly the mask computed by the
underlying collaborator on the softmax probability array with
`prune_method='both'`, so the two noise masks are identical. -/
theorem prune_both_eq_prune_Qij (gni : GetNoiseIndices) (masks : List Nat)
    (predsSoftmax preds : List (List ℚ)) :
    clNoise gni masks predsSoftmax preds "both"
      = clNoise gni masks predsSoftmax preds "Qij" ∧
    clNoise gni masks predsSoftmax preds "both"
      = some (gni masks predsSoftmax "both") :=
  ⟨rfl, rfl⟩

/-- **C8.** A pruning method outside the supported seven matches no branch of
the dispatch, so no noise mask is produced and the computation fails
(`noise` is never assigned, a fatal error with no retry); every supported
method produces a mask. -/
theorem prune_unknown_method_fails (gni : GetNoiseIndices) (masks : List Nat)
    (predsSoftmax preds : List (List ℚ)) (method : String)
    (h : method ∉ supportedCLTypes) :
    clNoise gni masks predsSoftmax preds method = none ∧
    ∀ m, m ∈ supportedCLTypes →
      (clNoise gni masks predsSoftmax preds m).isSome = true := by
  constructor
  · simp only [supportedCLTypes, List.mem_cons, List.not_mem_nil, or_false,
      not_or] at h
    obtain ⟨h1, h2, h3, h4, h5, h6, h7⟩ := h
    simp [clNoise, h1, h2, h3, h4, h5, h6, h7]
  · intro m hm
    simp only [supportedCLTypes, List.mem_cons, List.not_mem_nil,
      or_false] at hm
    rcases hm with rfl | rfl | rfl | rfl | rfl | rfl | rfl
    all_goals rfl

/-- Witness for C8: the unsupported method string `bogus` produces no mask,
while the seven supported ones do. -/
theorem prune_unknown_method_fails_witness :
    clNoise exampleGni [0, 1] [[1, 0], [0, 1]] [[0, 5], [3, 1]] "bogus"
      = none ∧
    ∀ m, m ∈ supportedCLTypes →
      (clNoise exampleGni [0, 1] [[1, 0], [0, 1]] [[0, 5], [3, 1]] m).isSome
        = true :=
  prune_unknown_method_fails exampleGni [0, 1] [[1, 0], [0, 1]]
    [[0, 5], [3, 1]] "bogus" (by decide)

/-- **C9.** Assembling the per-image confidence maps and reading one back
reproduces exactly the flattened boolean slice used to build it: the map's
bytes are the `true ↦ 255`, `false ↦ 0` encoding of the slice of the flat
mask taken in row-major accumulation order, and decoding the bytes recovers
the slice byte-exactly. -/
theorem confidence_map_roundtrip (noise : List Bool) (n height width idx : Nat)
    (hh : 0 < height) (hw : 0 < width)
    (hlen : noise.length = n * (height * width)) (hidx : idx < n) :
    ∃ m,
      (assembleConfidentMaps noise height width).get? idx = some m ∧
      m.flatten
        = ((noise.drop (idx * (height * width))).take (height * width)).map
            boolToByte ∧
      m.flatten.map byteToBool
        = (noise.drop (idx * (height * width))).take (height * width) := by
  have hpos : 0 < height * width := Nat.mul_pos hh hw
  have hbound : (idx + 1) * (height * width) ≤ noise.length := by
    rw [hlen]
    exact Nat.mul_le_mul (by omega) le_rfl
  refine ⟨(chunkList width ((noise.drop (idx * (height * width))).take
      (height * width))).map (fun row => row.map boolToByte), ?_, ?_, ?_⟩
  · unfold assembleConfidentMaps
    rw [List.get?_map, chunkList_get? (height * width) hpos idx noise hbound]
    rfl
  · rw [← List.map_flatten, chunkList_flatten width hw]
  · rw [← List.map_flatten, chunkList_flatten width hw, List.map_map]
    have hid : byteToBool ∘ boolToByte = id := by
      funext b
      cases b <;> rfl
    rw [hid, List.map_id]

/-- Witness for C9: round-trip of the second `1 × 2` image of a four-pixel
mask. -/
theorem confidence_map_roundtrip_witness :
    ∃ m,
      (assembleConfidentMaps [true, false, true, true] 1 2).get? 1
        = some m ∧
      m.flatten
        = (([true, false, true, true].drop (1 * (1 * 2))).take (1 * 2)).map
            boolToByte ∧
      m.flatten.map byteToBool
        = ([true, false, true, true].drop (1 * (1 * 2))).take (1 * 2) :=
  confidence_map_roundtrip [true, false, true, true] 2 1 2 1 (by decide)
    (by decide) (by decide) (by decide)

/-- **C4.** In a completed epoch iteration, evaluation mode (`training =
false`) never mutates model parameters: `loss.backward()` and
`optimizer.step()` are each invoked zero times; in training mode the
optimizer step (and the backward pass) is invoked exactly once per batch. -/
theorem optimizer_steps_per_mode (training : Bool) (epochIdx : Nat)
    (batches : List Batch) (vis : Visdom) (logger : Option LoggerSink)
    (updateBatches : Nat) (ms ms2 : MetricsState) (stats : EpochStats)
    (h : iterate_for_an_epoch training epochIdx batches vis logger
      updateBatches ms = (ms2, Except.ok stats)) :
    stats.optSteps = (if training then batches.length else 0) ∧
    stats.backwardCalls = (if training then batches.length else 0) := by
  obtain ⟨acc, hL, _, _, _, hback, hsteps, _, _⟩ :=
    iterate_ok_inv training epochIdx batches vis logger updateBatches ms ms2
      stats h
  obtain ⟨_, _, hb, ho, _⟩ :=
    batchLoop_ok training epochIdx updateBatches vis logger batches 0
      LoopAcc.init acc hL
  constructor
  · rw [hsteps, ho]
    simp [LoopAcc.init]
  · rw [hback, hb]
    simp [LoopAcc.init]

/-- Witness for C4: one training epoch over one batch performs exactly one
backward pass and one optimizer step. -/
theorem optimizer_steps_per_mode_witness :
    ∃ ms2 stats,
      iterate_for_an_epoch true 0 [{ loss := 1, dice := [1] }] trivVis none 1
        MetricsState.init = (ms2, Except.ok stats) ∧
      stats.optSteps = 1 ∧ stats.backwardCalls = 1 := by
  have hrun : iterate_for_an_epoch true 0 [{ loss := 1, dice := [1] }]
      trivVis none 1 MetricsState.init
      = (MetricsState.init, Except.ok
          { avgLoss := 1, diceClass := [1], diceTotal := 1,
            backwardCalls := 1, optSteps := 1, reports := [] }) := by
    norm_num [iterate_for_an_epoch, entryLogging, batchLoop, processBatch,
      stepAcc, batchLogWrite, imagesBlock, trivVis, epochEndSinks,
      epochEndLogWrites, classLines, lineName, modeTag, meanQ, meanAxis0,
      LoopAcc.init, MetricsState.init, List.range_succ, List.range_zero,
      List.getD]
  obtain ⟨h1, h2⟩ := optimizer_steps_per_mode true 0
    [{ loss := 1, dice := [1] }] trivVis none 1 MetricsState.init
    MetricsState.init _ hrun
  exact ⟨_, _, hrun, by simpa using h1, by simpa using h2⟩

/-- **C5.** In a completed epoch with at least one batch, the reported epoch
loss is the arithmetic mean of the per-batch losses, every entry of the
per-class overlap vector is the arithmetic mean over batches of that class's
per-batch overlaps, and the total overlap is the arithmetic mean across
classes of the per-class overlap. -/
theorem epoch_metrics_are_means (training : Bool) (epochIdx : Nat)
    (batches : List Batch) (vis : Visdom) (logger : Option LoggerSink)
    (updateBatches : Nat) (ms ms2 : MetricsState) (stats : EpochStats)
    (hne : batches ≠ [])
    (h : iterate_for_an_epoch training epochIdx batches vis logger
      updateBatches ms = (ms2, Except.ok stats)) :
    stats.avgLoss = (batches.map Batch.loss).sum / batches.length ∧
    (∀ b0 rest, batches = b0 :: rest → ∀ j, j < b0.dice.length →
      stats.diceClass.get? j
        = some ((batches.map (fun x => x.dice.getD j 0)).sum
            / batches.length)) ∧
    stats.diceTotal = stats.diceClass.sum / stats.diceClass.length := by
  obtain ⟨acc, hL, havg, hdc, hdt, _, _, _, _⟩ :=
    iterate_ok_inv training epochIdx batches vis logger updateBatches ms ms2
      stats h
  obtain ⟨hl, hd, _, _, _⟩ :=
    batchLoop_ok training epochIdx updateBatches vis logger batches 0
      LoopAcc.init acc hL
  simp only [LoopAcc.init, List.nil_append] at hl hd
  refine ⟨?_, ?_, ?_⟩
  · rw [havg, hl]
    unfold meanQ
    rw [List.length_map]
  · intro b0 rest hb j hj
    rw [hdc, hd, hb]
    unfold meanAxis0
    simp only [List.map_cons]
    rw [List.get?_map, List.get?_range hj]
    simp only [Option.map_some']
    unfold meanQ
    rw [show List.map (fun row => row.getD j 0) (List.map Batch.dice rest)
        = List.map (fun x => x.dice.getD j 0) rest from by
      rw [List.map_map]
      rfl]
    simp [List.length_map]
  · rw [hdt, hdc]
    unfold meanQ
    rfl

/-- Witness for C5: the spec's Epoch Orchestrator example, batch losses
`[1, 2, 3]` and overlap vectors `[[0.9, 0.1], [0.8, 0.2], [0.7, 0.3]]`, give
epoch loss `2`, per-class overlap `[0.8, 0.2]`, total overlap `0.5`. -/
theorem epoch_metrics_are_means_witness :
    ∃ ms2 stats,
      iterate_for_an_epoch true 0 exampleBatches trivVis none 1
        MetricsState.init = (ms2, Except.ok stats) ∧
      stats.avgLoss = 2 ∧ stats.diceClass = [4/5, 1/5] ∧
      stats.diceTotal = 1/2 ∧
      stats.avgLoss
        = (exampleBatches.map Batch.loss).sum / exampleBatches.length := by
  have hrun : iterate_for_an_epoch true 0 exampleBatches trivVis none 1
      MetricsState.init
      = (MetricsState.init, Except.ok
          { avgLoss := 2, diceClass := [4/5, 1/5], diceTotal := 1/2,
            backwardCalls := 3, optSteps := 3, reports := [] }) := by
    norm_num [iterate_for_an_epoch, entryLogging, batchLoop, processBatch,
      stepAcc, batchLogWrite, imagesBlock, trivVis, epochEndSinks,
      epochEndLogWrites, classLines, lineName, modeTag, meanQ, meanAxis0,
      LoopAcc.init, MetricsState.init, List.range_succ, List.range_zero,
      List.getD, exampleBatches]
  refine ⟨_, _, hrun, rfl, rfl, rfl, ?_⟩
  exact (epoch_metrics_are_means true 0 exampleBatches trivVis none 1
    MetricsState.init _ _ (by simp [exampleBatches]) hrun).1

/-- **C2.** After a completed validation epoch, the best-on-validation
checkpoint decision of the main loop fires if and only if that epoch's total
validation overlap equals or exceeds the running maximum of the Validation
History; on the spec's example run with validation totals
`[0.10, 0.15, 0.12, 0.20]` it fires at epochs 0, 1 and 3 and not at epoch 2,
and the final running maximum is `0.20`. -/
theorem best_ckpt_fires_iff_new_max (epochIdx updateBatches saveEpochs : Nat)
    (batches : List Batch) (vis : Visdom) (logger : Option LoggerSink)
    (ms ms2 : MetricsState) (stats : EpochStats)
    (h : iterate_for_an_epoch false epochIdx batches vis logger updateBatches
      ms = (ms2, Except.ok stats)) :
    (save_best_ckpt ms2 = true ↔ ms.maxMetric ≤ stats.diceTotal) ∧
    (CkptEvent.best epochIdx ∈ checkpointEvents saveEpochs epochIdx ms2 ↔
      ms.maxMetric ≤ stats.diceTotal) ∧
    runTrainingLoop 4 5 1 exampleTrainBatches exampleEvalBatches trivVis none
      = Except.ok
          ({ history := [1/10, 3/20, 3/25, 1/5], maxMetric := 1/5 },
           [CkptEvent.periodic 0, CkptEvent.best 0, CkptEvent.best 1,
            CkptEvent.best 3]) := by
  obtain ⟨acc, _, _, _, _, _, _, _, hms2⟩ :=
    iterate_ok_inv false epochIdx batches vis logger updateBatches ms ms2
      stats h
  rw [if_neg (by simp)] at hms2
  subst hms2
  have hsb : save_best_ckpt
      { history := ms.history ++ [stats.diceTotal]
        maxMetric := max ms.maxMetric stats.diceTotal } = true ↔
      ms.maxMetric ≤ stats.diceTotal := by
    unfold save_best_ckpt
    rw [List.getLast?_concat]
    simp [max_le_iff]
  refine ⟨hsb, ?_, ?_⟩
  · rw [best_mem_checkpointEvents]
    exact hsb
  · norm_num [runTrainingLoop, runEpochsFrom, iterate_for_an_epoch,
      entryLogging, batchLoop, processBatch, stepAcc, batchLogWrite,
      imagesBlock, trivVis, epochEndSinks, epochEndLogWrites, classLines,
      lineName, modeTag, meanQ, meanAxis0, LoopAcc.init, MetricsState.init,
      List.range_succ, List.range_zero, List.getD, exampleTrainBatches,
      exampleEvalBatches, checkpointEvents, save_best_ckpt, max_def,
      List.getLast?_cons_cons]

/-- Witness for C2: a concrete validation epoch scoring `1/2` from the empty
initial history makes the best-on-validation decision fire. -/
theorem best_ckpt_fires_iff_new_max_witness :
    ∃ ms2 stats,
      iterate_for_an_epoch false 0 [{ loss := 0, dice := [1/2] }] trivVis none
        1 MetricsState.init = (ms2, Except.ok stats) ∧
      save_best_ckpt ms2 = true := by
  have hrun : iterate_for_an_epoch false 0 [{ loss := 0, dice := [1/2] }]
      trivVis none 1 MetricsState.init
      = ({ history := [1/2], maxMetric := 1/2 }, Except.ok
          { avgLoss := 0, diceClass := [1/2], diceTotal := 1/2,
            backwardCalls := 0, optSteps := 0, reports := [] }) := by
    norm_num [iterate_for_an_epoch, entryLogging, batchLoop, processBatch,
      stepAcc, batchLogWrite, imagesBlock, trivVis, epochEndSinks,
      epochEndLogWrites, classLines, lineName, modeTag, meanQ, meanAxis0,
      LoopAcc.init, MetricsState.init, List.range_succ, List.range_zero,
      List.getD, max_def]
  refine ⟨_, _, hrun, ?_⟩
  exact (best_ckpt_fires_iff_new_max 0 1 5 [{ loss := 0, dice := [1/2] }]
    trivVis none MetricsState.init _ _ hrun).1.mpr
    (by norm_num [MetricsState.init])

/-- **C3.** A training epoch never touches the Validation History (even when
aborted); a completed evaluation epoch appends exactly one entry — the epoch's
total overlap — and updates the running maximum by `max`, so the maximum is
non-decreasing and the invariant that it equals `historyMax` — the max of all
entries ever appended — holds at the modelled initial state and is preserved;
`historyMax` bounds every history entry and is attained by one of them (or is
the initial `0`). -/
theorem validation_history_one_append_and_max :
    (∀ (epochIdx : Nat) (batches : List Batch) (vis : Visdom)
      (logger : Option LoggerSink) (updateBatches : Nat) (ms : MetricsState),
      (iterate_for_an_epoch true epochIdx batches vis logger updateBatches
        ms).fst = ms) ∧
    (∀ (epochIdx : Nat) (batches : List Batch) (vis : Visdom)
      (logger : Option LoggerSink) (updateBatches : Nat)
      (ms ms2 : MetricsState) (stats : EpochStats),
      iterate_for_an_epoch false epochIdx batches vis logger updateBatches ms
        = (ms2, Except.ok stats) →
      ms2.history = ms.history ++ [stats.diceTotal] ∧
      ms2.maxMetric = max ms.maxMetric stats.diceTotal ∧
      ms.maxMetric ≤ ms2.maxMetric ∧
      (ms.maxMetric = historyMax ms.history →
        ms2.maxMetric = historyMax ms2.history)) ∧
    MetricsState.init.maxMetric = historyMax MetricsState.init.history ∧
    (∀ (l : List ℚ) (x : ℚ), x ∈ l → x ≤ historyMax l) ∧
    (∀ l : List ℚ, historyMax l ∈ l ∨ historyMax l = 0) := by
  refine ⟨?_, ?_, rfl, ?_, ?_⟩
  · intro epochIdx batches vis logger updateBatches ms
    unfold iterate_for_an_epoch
    split
    · rfl
    · split
      · rfl
      · dsimp only
        split
        all_goals rfl
  · intro epochIdx batches vis logger updateBatches ms ms2 stats h
    obtain ⟨acc, _, _, _, _, _, _, _, hms2⟩ :=
      iterate_ok_inv false epochIdx batches vis logger updateBatches ms ms2
        stats h
    rw [if_neg (by simp)] at hms2
    subst hms2
    refine ⟨rfl, rfl, le_max_left _ _, ?_⟩
    intro hinv
    show max ms.maxMetric stats.diceTotal
      = historyMax (ms.history ++ [stats.diceTotal])
    unfold historyMax
    rw [List.foldl_append, List.foldl_cons, List.foldl_nil, hinv]
    rfl
  · intro l x hx
    exact mem_le_foldl_max l 0 x hx
  · intro l
    rcases foldl_max_mem_or_init l 0 with hm | he
    · exact Or.inl hm
    · exact Or.inr he

/-- Witness for C3: on a concrete evaluation epoch from the initial state the
appended entry is the epoch total, the maximum is updated and the invariant
is preserved. -/
theorem validation_history_one_append_and_max_witness :
    (iterate_for_an_epoch true 0 [{ loss := 1, dice := [1] }] trivVis none 1
      { history := [3/4], maxMetric := 3/4 }).fst
      = { history := [3/4], maxMetric := 3/4 } ∧
    ∃ ms2 stats,
      iterate_for_an_epoch false 0 [{ loss := 0, dice := [1/2] }] trivVis
        none 1 { history := [3/4], maxMetric := 3/4 }
        = (ms2, Except.ok stats) ∧
      ms2.history = [3/4] ++ [stats.diceTotal] ∧
      ms2.maxMetric = historyMax ms2.history := by
  constructor
  · exact validation_history_one_append_and_max.1 0
      [{ loss := 1, dice := [1] }] trivVis none 1
      { history := [3/4], maxMetric := 3/4 }
  · have hrun : iterate_for_an_epoch false 0 [{ loss := 0, dice := [1/2] }]
        trivVis none 1 { history := [3/4], maxMetric := 3/4 }
        = ({ history := [3/4, 1/2], maxMetric := 3/4 }, Except.ok
            { avgLoss := 0, diceClass := [1/2], diceTotal := 1/2,
              backwardCalls := 0, optSteps := 0, reports := [] }) := by
      norm_num [iterate_for_an_epoch, entryLogging, batchLoop, processBatch,
        stepAcc, batchLogWrite, imagesBlock, trivVis, epochEndSinks,
        epochEndLogWrites, classLines, lineName, modeTag, meanQ, meanAxis0,
        LoopAcc.init, List.range_succ, List.range_zero, List.getD, max_def]
    obtain ⟨h1, h2, h3, h4⟩ :=
      (validation_history_one_append_and_max.2.1) 0
        [{ loss := 0, dice := [1/2] }] trivVis none 1
        { history := [3/4], maxMetric := 3/4 } _ _ hrun
    exact ⟨_, _, hrun, h1, h4 (by norm_num [historyMax, max_def])⟩

/-- **C6.** With a positive `save_epochs`, the periodic snapshot of the main
loop fires — regardless of the metrics state, i.e. unconditionally — exactly
when the epoch index is divisible by `save_epochs`, and in particular it
fires at epoch 0. -/
theorem periodic_snapshot_every_save_epochs (saveEpochs epochIdx : Nat)
    (ms : MetricsState) (hs : 0 < saveEpochs) :
    (CkptEvent.periodic epochIdx ∈ checkpointEvents saveEpochs epochIdx ms ↔
      saveEpochs ∣ epochIdx) ∧
    CkptEvent.periodic 0 ∈ checkpointEvents saveEpochs 0 ms := by
  have hiff : ∀ e : Nat, (CkptEvent.periodic e ∈
      checkpointEvents saveEpochs e ms ↔ saveEpochs ∣ e) := by
    intro e
    rw [periodic_mem_checkpointEvents]
    simp [Nat.dvd_iff_mod_eq_zero]
  exact ⟨hiff epochIdx, (hiff 0).mpr (dvd_zero saveEpochs)⟩

/-- Witness for C6: with `save_epochs = 2` the periodic snapshot fires at
epochs 4 and 0. -/
theorem periodic_snapshot_every_save_epochs_witness :
    (CkptEvent.periodic 4 ∈ checkpointEvents 2 4 MetricsState.init) ∧
    (CkptEvent.periodic 0 ∈ checkpointEvents 2 0 MetricsState.init) :=
  ⟨(periodic_snapshot_every_save_epochs 2 4 MetricsState.init
      (by decide)).1.mpr (by decide),
   (periodic_snapshot_every_save_epochs 2 0 MetricsState.init
      (by decide)).2⟩

/-- **C7 counterexample.** An exception raised by the epoch-end visdom
line-plot sink is caught nowhere: it propagates out of
`iterate_for_an_epoch` and aborts the epoch, refuting the claim that every
visualization/logging-sink exception is caught at the call site and never
propagated out of the epoch iteration. -/
theorem sink_exception_escapes_epoch :
    (iterate_for_an_epoch true 0 [{ loss := 1, dice := [1] }] failLineVis
      none 1 MetricsState.init).snd
      = Except.error "visdom connection refused" := by
  norm_num [iterate_for_an_epoch, entryLogging, batchLoop, processBatch,
    stepAcc, batchLogWrite, imagesBlock, failLineVis, epochEndSinks,
    epochEndLogWrites, classLines, lineName, modeTag, meanQ, meanAxis0,
    LoopAcc.init, MetricsState.init, List.range_succ, List.range_zero,
    List.getD]

/-- **C7 amended.** Only the per-batch visdom image-display calls are guarded
by `try/except`: when the logger and the epoch-end line-plot sink do not
raise, the epoch always completes normally regardless of the image-display
sink's behavior, and an image-display failure on the first batch is caught
and reported among the printed error messages rather than propagated.
Exceptions from the unguarded epoch-end line plots or logger writes do
propagate and abort the epoch (see the counterexample). -/
theorem images_failures_caught_and_reported (training : Bool)
    (epochIdx updateBatches : Nat) (batches : List Batch) (vis : Visdom)
    (logger : Option LoggerSink) (ms : MetricsState)
    (hline : ∀ w x y n, vis.line w x y n = Except.ok ())
    (hlog : ∀ lw, logger = some lw → ∀ s, lw s = Except.ok ()) :
    (∃ ms2 stats, iterate_for_an_epoch training epochIdx batches vis logger
      updateBatches ms = (ms2, Except.ok stats)) ∧
    (∀ e b rest, batches = b :: rest →
      (∀ w, vis.images w = Except.error e) →
      ∀ ms2 stats, iterate_for_an_epoch training epochIdx batches vis logger
        updateBatches ms = (ms2, Except.ok stats) →
      ("Error message: " ++ e) ∈ stats.reports) := by
  constructor
  · obtain ⟨acc, hL⟩ := batchLoop_never_fails training epochIdx updateBatches
      vis logger hlog batches 0 LoopAcc.init
    refine ⟨if training then ms
        else { history := ms.history ++ [meanQ (meanAxis0 acc.diceList)]
               maxMetric := max ms.maxMetric (meanQ (meanAxis0 acc.diceList)) },
      { avgLoss := meanQ acc.lossList
        diceClass := meanAxis0 acc.diceList
        diceTotal := meanQ (meanAxis0 acc.diceList)
        backwardCalls := acc.backwardCalls
        optSteps := acc.optSteps
        reports := acc.reports }, ?_⟩
    unfold iterate_for_an_epoch
    rw [entryLogging_ok training epochIdx logger hlog, hL]
    dsimp only
    rw [epochEndSinks_ok training epochIdx vis logger _ _ _ hline hlog]
  · intro e b rest hb himg ms2 stats hok
    obtain ⟨acc, hL, _, _, _, _, _, hrep, _⟩ :=
      iterate_ok_inv training epochIdx batches vis logger updateBatches ms
        ms2 stats hok
    subst hb
    simp only [batchLoop] at hL
    have himgBlock : imagesBlock vis training = Except.error e := by
      unfold imagesBlock
      rw [himg]
    have hp : processBatch training epochIdx 0 updateBatches vis logger b
        LoopAcc.init = Except.ok
          { stepAcc training b LoopAcc.init with
            reports := (stepAcc training b LoopAcc.init).reports
              ++ ["Error message: " ++ e] } := by
      unfold processBatch
      rw [batchLogWrite_ok epochIdx 0 logger hlog]
      dsimp only
      rw [if_pos (by simp), himgBlock]
    rw [hp] at hL
    simp only at hL
    obtain ⟨_, _, _, _, ⟨extra, hre⟩⟩ :=
      batchLoop_ok training epochIdx updateBatches vis logger rest 1 _ acc hL
    rw [hrep, hre]
    simp [stepAcc, LoopAcc.init]

/-- Witness for the amended C7: with failing image-display calls and healthy
line/log sinks, a concrete epoch completes normally and reports the caught
error message. -/
theorem images_failures_caught_and_reported_witness :
    ∃ ms2 stats,
      iterate_for_an_epoch true 0 [{ loss := 1, dice := [1] }] failImagesVis
        none 1 MetricsState.init = (ms2, Except.ok stats) ∧
      ("Error message: " ++ "visdom connection refused") ∈ stats.reports := by
  obtain ⟨⟨ms2, stats, hok⟩, hrep⟩ :=
    images_failures_caught_and_reported true 0 1 [{ loss := 1, dice := [1] }]
      failImagesVis none MetricsState.init (fun _ _ _ _ => rfl)
      (fun lw h => nomatch h)
  exact ⟨ms2, stats, hok, hrep "visdom connection refused"
    { loss := 1, dice := [1] } [] rfl (fun _ => rfl) ms2 stats hok⟩
